import Mathlib

/-!
Shallow embedding of the static-value analyzer of the turbo repository:
the builtin rewrite engine (`src/crates/turbopack/src/analyzer/builtin.rs`,
function `replace_builtin`) and the pattern-mapping component
(`src/crates/turbopack-ecmascript/src/references/pattern_mapping.rs`).

Rust's mutable-in-place rewrite `fn replace_builtin(value: &mut JsValue) -> bool`
is embedded as a pure function `JsValue → JsValue × Bool` returning the new
value together with the changed flag.  Floating-point constant numbers are
embedded as rationals; the `as usize` cast of the code truncates toward zero
and saturates at zero for negative inputs, which is `(Int.floor q).toNat` on
rationals (the saturation at `usize::MAX` is not modelled: indices are
unbounded naturals here).
-/

/-- The kinds of free variables.  Only `Other` is exercised by the code under
analysis (`FreeVar(FreeVarKind::Other("undefined".into()))`). -/
inductive FreeVarKind where
  | Require : FreeVarKind
  | Dirname : FreeVarKind
  | Other : String → FreeVarKind
deriving DecidableEq, Repr

/-- `ConstantValue` from the analyzer: a literal string, number or boolean.
Numbers (`f64` in the code) are embedded as rationals. -/
inductive ConstantValue where
  | Str : String → ConstantValue
  | Num : ℚ → ConstantValue
  | Bool : Bool → ConstantValue
  | Undefined : ConstantValue
  | Null : ConstantValue
deriving DecidableEq, Repr

/-- `ObjectPart`, parametric in the value type so that `JsValue` below is a
nested (rather than mutual) inductive: a literal key/value entry or a spread
entry. -/
inductive ObjectPartF (V : Type) where
  | KeyValue : V → V → ObjectPartF V
  | Spread : V → ObjectPartF V
deriving DecidableEq, Repr

/-- The symbolic value tree `JsValue` of the analyzer.  `Unknown`'s optional
first component is the shared justification (an `Arc` in the code). -/
inductive JsValue where
  | Constant : ConstantValue → JsValue
  | Array : List JsValue → JsValue
  | Object : List (ObjectPartF JsValue) → JsValue
  | Url : JsValue → JsValue
  | Concat : List JsValue → JsValue
  | Add : List JsValue → JsValue
  | Function : JsValue → JsValue
  | Call : JsValue → List JsValue → JsValue
  | MemberCall : JsValue → JsValue → List JsValue → JsValue
  | Member : JsValue → JsValue → JsValue
  | Alternatives : List JsValue → JsValue
  | Unknown : Option JsValue → String → JsValue
  | FreeVar : FreeVarKind → JsValue
  | Variable : Nat → JsValue
  | WellKnownObject : Nat → JsValue
  | WellKnownFunction : Nat → JsValue
  | Argument : Nat → JsValue
  | Module : String → JsValue

/-- `ObjectPart` of the analyzer, instantiated at `JsValue`. -/
abbrev ObjectPart := ObjectPartF JsValue

/-- The equality test `key == &**prop` of the object lookup, specialised to
the only shape it is used at: `prop` is statically known to be a `Constant`
there, so the full structural equality of the code degenerates to this
check. -/
def isConstEq (c : ConstantValue) : JsValue → Bool
  | .Constant c2 => decide (c = c2)
  | _ => false

theorem isConstEq_iff (c : ConstantValue) (v : JsValue) :
    isConstEq c v = true ↔ v = JsValue.Constant c := by
  cases v <;> simp only [isConstEq, decide_eq_true_eq] <;>
    constructor <;> intro h <;> first | (cases h; rfl) | simp_all

mutual
/-- Modelled from the spec: `JsValue::has_placeholder` is not part of the
sources under verification (only its callers in `builtin.rs` are).  §3 of the
spec defines a value as placeholder-bearing when any of `Unknown`, `Argument`,
`FreeVar`, `Variable`, `Call`, `MemberCall`, `Member`, `WellKnownObject`,
`WellKnownFunction`, `Module` occurs anywhere in its subtree.  The shared
justification of an `Unknown` needs no inspection: the `Unknown` node itself
already makes the value placeholder-bearing. -/
def JsValue.has_placeholder : JsValue → Bool
  | .Constant _ => false
  | .Array items => hasPlaceholderList items
  | .Object parts => hasPlaceholderParts parts
  | .Url v => v.has_placeholder
  | .Concat vs => hasPlaceholderList vs
  | .Add vs => hasPlaceholderList vs
  | .Function body => body.has_placeholder
  | .Call _ _ => true
  | .MemberCall _ _ _ => true
  | .Member _ _ => true
  | .Alternatives alts => hasPlaceholderList alts
  | .Unknown _ _ => true
  | .FreeVar _ => true
  | .Variable _ => true
  | .WellKnownObject _ => true
  | .WellKnownFunction _ => true
  | .Argument _ => true
  | .Module _ => true

/-- `has_placeholder` over a list of children. -/
def hasPlaceholderList : List JsValue → Bool
  | [] => false
  | v :: vs => v.has_placeholder || hasPlaceholderList vs

/-- `has_placeholder` over the parts of an object literal. -/
def hasPlaceholderParts : List ObjectPart → Bool
  | [] => false
  | .KeyValue k v :: ps => k.has_placeholder || v.has_placeholder || hasPlaceholderParts ps
  | .Spread v :: ps => v.has_placeholder || hasPlaceholderParts ps
end

mutual
/-- Modelled from the spec: the traversal `JsValue::visit_mut_conditional` is
not part of the sources under verification; §4.1 specifies the inlining
traversal used by the `Call(Function(body), args)` rule: substitute every
`Argument(i)` reachable without crossing into a nested `Function` boundary
with `args[i]` if present, else with the free-variable sentinel "undefined";
the traversal stops descending at any nested `Function` node, and `Unknown`'s
justification is immutable and shared, hence never rewritten. -/
def substArgs (args : List JsValue) : JsValue → JsValue
  | .Constant c => .Constant c
  | .Array items => .Array (substArgsList args items)
  | .Object parts => .Object (substArgsParts args parts)
  | .Url v => .Url (substArgs args v)
  | .Concat vs => .Concat (substArgsList args vs)
  | .Add vs => .Add (substArgsList args vs)
  | .Function body => .Function body
  | .Call c as => .Call (substArgs args c) (substArgsList args as)
  | .MemberCall o p as =>
      .MemberCall (substArgs args o) (substArgs args p) (substArgsList args as)
  | .Member o p => .Member (substArgs args o) (substArgs args p)
  | .Alternatives alts => .Alternatives (substArgsList args alts)
  | .Unknown j r => .Unknown j r
  | .FreeVar k => .FreeVar k
  | .Variable i => .Variable i
  | .WellKnownObject k => .WellKnownObject k
  | .WellKnownFunction k => .WellKnownFunction k
  | .Argument i => args.getD i (.FreeVar (.Other "undefined"))
  | .Module m => .Module m

/-- Argument substitution over a list of children. -/
def substArgsList (args : List JsValue) : List JsValue → List JsValue
  | [] => []
  | v :: vs => substArgs args v :: substArgsList args vs

/-- Argument substitution over the parts of an object literal. -/
def substArgsParts (args : List JsValue) : List ObjectPart → List ObjectPart
  | [] => []
  | .KeyValue k v :: ps => .KeyValue (substArgs args k) (substArgs args v) :: substArgsParts args ps
  | .Spread v :: ps => .Spread (substArgs args v) :: substArgsParts args ps
end

/-- Modelled from the spec: `JsValue::make_unknown` is not part of the sources
under verification (only its callers in `builtin.rs` are).  It replaces a node
by `Unknown` carrying the reason string of the fired rule; the old node is
kept as the shared explanatory justification (§3: the justification is an
immutable, shared explanatory sub-expression). -/
def make_unknown (value : JsValue) (reason : String) : JsValue :=
  .Unknown (some value) reason

/-- The inner helper `items_to_alternatives` of the `Member`-on-`Array` rule:
every element is a candidate result, plus a catch-all unknown for prototype
methods and values. -/
def items_to_alternatives (items : List JsValue) (prop : JsValue) : JsValue :=
  .Alternatives (items ++
    [.Unknown (some (.Member (.Array []) prop)) "unknown array prototype methods or values"])

/-- One part's contribution inside `parts_to_alternatives`. -/
def part_to_alternative (prop : JsValue) : ObjectPart → JsValue
  | .KeyValue _ v => v
  | .Spread v =>
      .Unknown (some (.Member (.Object [.Spread v]) prop)) "spreaded object"

/-- The inner helper `parts_to_alternatives` of the `Member`-on-`Object` rule:
every key-value part contributes its value, every spread part an unknown, plus
a catch-all unknown for prototype methods and values. -/
def parts_to_alternatives (parts : List ObjectPart) (prop : JsValue) : JsValue :=
  .Alternatives (parts.map (part_to_alternative prop) ++
    [.Unknown (some (.Member (.Object []) prop)) "unknown object prototype methods or values"])

/-- The reverse scan of the `Member`-on-`Object` constant-property rule,
applied to the already-reversed parts list: the first matching `KeyValue`
wins, a `Spread` collapses the lookup, an exhausted scan yields the
free-variable sentinel "undefined".  `whole` is the `Member` node being
rewritten (it becomes the justification in the spread case, matching
`value.make_unknown("spreaded object")`). -/
def member_object_scan (whole : JsValue) (c : ConstantValue) : List ObjectPart → JsValue
  | [] => .FreeVar (.Other "undefined")
  | .KeyValue k v :: rest =>
      if isConstEq c k then v else member_object_scan whole c rest
  | .Spread _ :: _ => make_unknown whole "spreaded object"

/-- The whitelist of the `concat` specialization: argument shapes safe to
splice without hidden side effects. -/
def isSpliceSafe : JsValue → Bool
  | .Array _ => true
  | .Constant _ => true
  | .Url _ => true
  | .Concat _ => true
  | .Add _ => true
  | .WellKnownObject _ => true
  | .WellKnownFunction _ => true
  | .Function _ => true
  | _ => false

/-- How one whitelisted `concat` argument extends the receiver's items:
an `Array` argument is spliced element-wise, anything else is pushed as a
single element. -/
def spliceArg : JsValue → List JsValue
  | .Array inner => inner
  | v => [v]

/-- Whether an object part is a spread of an object literal (the shape the
top-level spread-flattening rule fires on). -/
def isSpreadObject : ObjectPart → Bool
  | .Spread (.Object _) => true
  | _ => false

/-- The splice step of the spread-flattening rule: a `Spread(Object(inner))`
part is replaced by `inner` in place, every other part is kept. -/
def flattenPart : ObjectPart → List ObjectPart
  | .Spread (.Object inner) => inner
  | p => [p]

/-- Shallow embedding of `replace_builtin` from
`src/crates/turbopack/src/analyzer/builtin.rs`: one local simplification
attempt on the root node, returning the new value together with the
changed flag (the Rust function mutates `&mut JsValue` and returns `bool`). -/
def replace_builtin (value : JsValue) : JsValue × Bool :=
  match value with
  | .Member obj prop =>
    match obj with
    | .Constant _ => (make_unknown value "property on constant", true)
    | .Url _ => (make_unknown value "property on url", true)
    | .Concat _ => (make_unknown value "property on string", true)
    | .Add _ => (make_unknown value "property on number or string", true)
    | .Unknown _ _ => (make_unknown value "property on unknown", true)
    | .Function _ => (make_unknown value "property on function", true)
    | .Alternatives alts =>
        (.Alternatives (alts.map (fun alt => .Member alt prop)), true)
    | .Array array =>
      match prop with
      | .Unknown _ _ => (items_to_alternatives array prop, true)
      | .Constant (.Num num) =>
          let index := (Int.floor num).toNat
          if (index : ℚ) = num ∧ index < array.length then
            (array.getD index (.Constant .Undefined), true)
          else
            (make_unknown value "invalid index", true)
      | .Constant _ => (make_unknown value "non-num constant property on array", true)
      | .Array _ => (make_unknown value "array property on array", true)
      | .Object _ => (make_unknown value "object property on array", true)
      | .Url _ => (make_unknown value "url property on array", true)
      | .Function _ => (make_unknown value "function property on array", true)
      | .Alternatives alts =>
          (.Alternatives (alts.map (fun alt => .Member (.Array array) alt)), true)
      | .Concat _ =>
          if prop.has_placeholder then (value, true)
          else (items_to_alternatives array prop, true)
      | .Add _ =>
          if prop.has_placeholder then (value, true)
          else (items_to_alternatives array prop, true)
      | _ => (value, false)
    | .Object parts =>
      match prop with
      | .Unknown _ _ => (parts_to_alternatives parts prop, true)
      | .Constant c => (member_object_scan value c parts.reverse, true)
      | .Array _ => (make_unknown value "array property on object", true)
      | .Object _ => (make_unknown value "object property on object", true)
      | .Url _ => (make_unknown value "url property on object", true)
      | .Function _ => (make_unknown value "function property on object", true)
      | .Alternatives alts =>
          (.Alternatives (alts.map (fun alt => .Member (.Object parts) alt)), true)
      | .Concat _ =>
          if prop.has_placeholder then (value, false)
          else (parts_to_alternatives parts prop, true)
      | .Add _ =>
          if prop.has_placeholder then (value, false)
          else (parts_to_alternatives parts prop, true)
      | _ => (value, false)
    | _ => (value, false)
  | .MemberCall obj prop args =>
    match obj, prop with
    | .Array items, .Constant (.Str s) =>
        if s = "concat" ∧ args.all isSpliceSafe then
          (.Array (items ++ (args.map spliceArg).flatten), true)
        else
          (.Call (.Member obj prop) args, true)
    | .Alternatives alts, _ =>
        (.Alternatives (alts.map (fun alt => .MemberCall alt prop args)), true)
    | _, _ => (.Call (.Member obj prop) args, true)
  | .Call callee args =>
    match callee with
    | .Unknown _ _ => (make_unknown value "call of unknown function", true)
    | .Array _ => (make_unknown value "call of array", true)
    | .Object _ => (make_unknown value "call of object", true)
    | .Constant _ => (make_unknown value "call of constant", true)
    | .Url _ => (make_unknown value "call of url", true)
    | .Concat _ => (make_unknown value "call of string", true)
    | .Add _ => (make_unknown value "call of number or string", true)
    | .Function body => (substArgs args body, true)
    | .Alternatives alts =>
        (.Alternatives (alts.map (fun alt => .Call alt args)), true)
    | _ => (value, false)
  | .Object parts =>
      if parts.any isSpreadObject then
        ((.Object ((parts.map flattenPart).flatten)), true)
      else (value, false)
  | _ => (value, false)

/-- Severity of an emitted issue.  Only `Bug` is exercised by
`pattern_mapping.rs`; the other levels stand in for the rest of the external
`IssueSeverity` enum. -/
inductive IssueSeverity where
  | Bug : IssueSeverity
  | Error : IssueSeverity
  | Warning : IssueSeverity
deriving DecidableEq, Repr

/-- The `CodeGenerationIssue` record emitted to the diagnostics sink:
severity, optional code, title, message and the contextual file path. -/
structure CodeGenerationIssue where
  severity : IssueSeverity
  code : Option String
  title : String
  message : String
  path : String
deriving DecidableEq, Repr

/-- The calling convention of the import site (`ResolveType`). -/
inductive ResolveType where
  | EsmAsync : ResolveType
  | Cjs : ResolveType
deriving DecidableEq, Repr

/-- The `PatternMapping` classification, parametric in the module-id type
(the external `ModuleId` is opaque to this component).  `Map`'s `HashMap` is
embedded as an association list. -/
inductive PatternMapping (ModuleId : Type) where
  | Invalid : PatternMapping ModuleId
  | Single : ModuleId → PatternMapping ModuleId
  | Map : List (String × ModuleId) → PatternMapping ModuleId
  | OriginalReferenceExternal : PatternMapping ModuleId
  | OriginalReferenceTypeExternal : String → PatternMapping ModuleId

/-- Whether the classification is the `Map` variant. -/
def PatternMapping.isMap {ModuleId : Type} : PatternMapping ModuleId → Bool
  | .Map _ => true
  | _ => false

/-- The target-language expressions `PatternMapping` generates, parametric in
the module-id type: a literal string node, the module-id literal produced by
`module_id_to_lit`, the throwing stub of the `Invalid` case, and opaque
caller-supplied expressions (the key expression of `apply`). -/
inductive Expr (ModuleId : Type) where
  | LitStr : String → Expr ModuleId
  | ModuleIdLit : ModuleId → Expr ModuleId
  | ThrowInvalid : Expr ModuleId
  | Opaque : Nat → Expr ModuleId
deriving DecidableEq, Repr

/-- `PatternMapping::create`.  The two `todo!` paths of the code (`Map` and
`OriginalReferenceExternal`) are embedded as `none`; every implemented path
returns `some` expression. -/
def PatternMapping.create {ModuleId : Type} :
    PatternMapping ModuleId → Option (Expr ModuleId)
  | .Invalid => some .ThrowInvalid
  | .Single module_id => some (.ModuleIdLit module_id)
  | .Map _ => none
  | .OriginalReferenceExternal => none
  | .OriginalReferenceTypeExternal s => some (.LitStr s)

/-- `PatternMapping::apply`: `OriginalReferenceExternal` passes the
caller-supplied key expression through unchanged; every other variant falls
back to `create`. -/
def PatternMapping.apply {ModuleId : Type} (pm : PatternMapping ModuleId)
    (key_expr : Expr ModuleId) : Option (Expr ModuleId) :=
  match pm with
  | .OriginalReferenceExternal => some key_expr
  | _ => pm.create

/-- The resolver's result shape as consumed by `resolve_request`, parametric
in the asset type.  `Other` stands for every further (`_`-matched) variant of
the external `ResolveResult`: the code treats them uniformly.  The second
tuple component of the Rust variants (the references list) is dropped: the
code never reads it. -/
inductive ResolveResult (Asset : Type) where
  | Alternatives : List Asset → ResolveResult Asset
  | Single : Asset → ResolveResult Asset
  | SpecialOriginalReferenceExternal : ResolveResult Asset
  | SpecialOriginalReferenceTypeExternal : String → ResolveResult Asset
  | Other : ResolveResult Asset

/-- The chunk-id-assignment collaborator: the direct placement id of a
placeable, and the manifest-loader id of an asset (used for asynchronous
loading). -/
structure ChunkContext (Asset Placeable ModuleId : Type) where
  manifest_loader_id : Asset → ModuleId
  id : Placeable → ModuleId

/-- Shallow embedding of `PatternMappingVc::resolve_request` from
`src/crates/turbopack-ecmascript/src/references/pattern_mapping.rs`.
`resolve_from` embeds `EcmascriptChunkPlaceableVc::resolve_from` (placeable
lookup), `asset_path` the `asset.path().to_string()` used in the diagnostic
message.  Diagnostic emission — the only side effect — is embedded as the
returned list of issues; the `dbg`-formatted tail of the
not-implemented message is abbreviated. -/
def resolve_request {Asset Placeable ModuleId : Type}
    (issue_context_path : String)
    (resolve_from : Asset → Option Placeable)
    (asset_path : Asset → String)
    (chunk_context : ChunkContext Asset Placeable ModuleId)
    (resolve_result : ResolveResult Asset)
    (resolve_type : ResolveType) :
    PatternMapping ModuleId × List CodeGenerationIssue :=
  let placed (asset : Asset) : PatternMapping ModuleId × List CodeGenerationIssue :=
    match resolve_from asset with
    | some placeable =>
        let name := if resolve_type = ResolveType.EsmAsync then
            chunk_context.manifest_loader_id asset
          else
            chunk_context.id placeable
        (.Single name, [])
    | none =>
        (.Invalid,
         [⟨.Bug, none, "non-ecmascript placeable asset",
           "asset " ++ asset_path asset ++
             " is not placeable in ESM chunks, so it doesn't have a module id",
           issue_context_path⟩])
  match resolve_result with
  | .Alternatives assets =>
      match assets.head? with
      | some asset => placed asset
      | none => (.Invalid, [])
  | .Single asset => placed asset
  | .SpecialOriginalReferenceExternal => (.OriginalReferenceExternal, [])
  | .SpecialOriginalReferenceTypeExternal s => (.OriginalReferenceTypeExternal s, [])
  | .Other =>
      (.Invalid,
       [⟨.Bug, none, "not implemented result for pattern mapping",
         "the reference resolves to a non-trivial result, which is not supported yet",
         issue_context_path⟩])

/-- Claim C10: for every list of alternatives `alts` and every property `P`,
`replace_builtin` rewrites `Member(Alternatives(alts), P)` to
`Alternatives(Member(alt, P) for alt in alts)`, in order, reporting a
change — the join distributes over member access. -/
theorem C10_member_alternatives_distributes (alts : List JsValue) (P : JsValue) :
    replace_builtin (.Member (.Alternatives alts) P) =
      (.Alternatives (alts.map (fun alt => .Member alt P)), true) := rfl

/-- Claim C1 (failing input): on the deliberately deferred case of a `Member`
node whose object is an `Array` and whose property is a `Concat` that still
contains placeholders, `replace_builtin` leaves the tree bit-for-bit identical
but reports a change (`true`): in the source the `false` of that branch is
discarded because the inner `match` ends with a semicolon and the arm then
returns `true` (the symmetric `Object` branch, where the `match` is the arm's
tail expression, correctly reports `false`, as does the comment-stated intent
"keep the member infact since it might be handled later"). -/
theorem C1_deferred_array_member_reports_changed :
    (JsValue.Concat [.Argument 0]).has_placeholder = true ∧
    replace_builtin (.Member (.Array []) (.Concat [.Argument 0])) =
      (.Member (.Array []) (.Concat [.Argument 0]), true) ∧
    replace_builtin (.Member (.Object []) (.Concat [.Argument 0])) =
      (.Member (.Object []) (.Concat [.Argument 0]), false) :=
  ⟨rfl, rfl, rfl⟩

/-- Claim C3: for every `Call` node whose callee is `Function(body)` and every
argument list `args`, `replace_builtin` replaces the node by the substituted
copy of `body`; the substitution maps each reachable `Argument(i)` to
`args[i]` when `i` is in range and to the free-variable sentinel "undefined"
otherwise, never descends into a nested `Function` node, and the spec's
example `Call(Function(Add([Argument(0), Constant("x")])), [Constant("y")])`
reduces to `Add([Constant("y"), Constant("x")])`. -/
theorem C3_call_function_inlines (body : JsValue) (args : List JsValue) :
    replace_builtin (.Call (.Function body) args) = (substArgs args body, true) ∧
    (∀ i : Nat, substArgs args (.Argument i) =
      args.getD i (.FreeVar (.Other "undefined"))) ∧
    (∀ inner : JsValue, substArgs args (.Function inner) = .Function inner) ∧
    replace_builtin (.Call (.Function (.Add [.Argument 0, .Constant (.Str "x")]))
        [.Constant (.Str "y")]) =
      (.Add [.Constant (.Str "y"), .Constant (.Str "x")], true) :=
  ⟨rfl, fun _ => rfl, fun _ => rfl, rfl⟩

/-- What one step of the object lookup's reverse scan stops at: a key-value
part whose key equals the constant property, or any spread part. -/
def scanHit (c : ConstantValue) : ObjectPart → Bool
  | .KeyValue k _ => isConstEq c k
  | .Spread _ => true

/-- The reverse scan of the constant-property object lookup is the first
`scanHit` of the scanned list: a matching key-value part yields its value, a
spread part collapses the lookup, no hit yields the "undefined" sentinel. -/
theorem member_object_scan_eq_find (whole : JsValue) (c : ConstantValue)
    (l : List ObjectPart) :
    member_object_scan whole c l =
      (match l.find? (scanHit c) with
       | some (.KeyValue _ v) => v
       | some (.Spread _) => make_unknown whole "spreaded object"
       | none => .FreeVar (.Other "undefined")) := by
  induction l with
  | nil => rfl
  | cons p rest ih =>
    cases p with
    | KeyValue k v =>
      by_cases h : isConstEq c k
      · simp [member_object_scan, List.find?, scanHit, h]
      · simp only [Bool.not_eq_true] at h
        simp [member_object_scan, List.find?, scanHit, h, ih]
    | Spread v => simp [member_object_scan, List.find?, scanHit]

/-- Claim C4: on a `Member` whose object is `Object(parts)` and whose property
is a constant, `replace_builtin` scans the parts in reverse order; the first
`KeyValue` whose key equals the constant property replaces the node by that
part's value (so the last literal write wins, as in the spec's example with
two writes to "a"), a `Spread` part met before any match replaces the node by
`Unknown("spreaded object")`, and an exhausted scan yields the free-variable
sentinel "undefined". -/
theorem C4_member_object_constant_lookup (parts : List ObjectPart)
    (c : ConstantValue) (v1 v2 : JsValue) :
    replace_builtin (.Member (.Object parts) (.Constant c)) =
      ((match parts.reverse.find? (scanHit c) with
        | some (.KeyValue _ v) => v
        | some (.Spread _) =>
            make_unknown (.Member (.Object parts) (.Constant c)) "spreaded object"
        | none => .FreeVar (.Other "undefined")), true) ∧
    replace_builtin (.Member (.Object [.KeyValue (.Constant (.Str "a")) v1,
        .KeyValue (.Constant (.Str "a")) v2]) (.Constant (.Str "a"))) = (v2, true) := by
  constructor
  · show (member_object_scan (.Member (.Object parts) (.Constant c)) c parts.reverse,
      true) = _
    rw [member_object_scan_eq_find]
  · rfl

/-- Claim C5: on a `Member` whose object is `Array(items)` and whose property
is a constant number, a non-negative integer index `n` in bounds replaces the
node by the `n`-th element of `items`, and a number that is no in-bounds
natural (out of bounds, negative or non-integer) replaces the node by
`Unknown("invalid index")`. -/
theorem C5_member_array_constant_index (items : List JsValue) (n : Nat) (q : ℚ)
    (d : JsValue) (hn : n < items.length)
    (hq : ¬ ∃ m : Nat, (m : ℚ) = q ∧ m < items.length) :
    replace_builtin (.Member (.Array items) (.Constant (.Num (n : ℚ)))) =
      (items.getD n d, true) ∧
    replace_builtin (.Member (.Array items) (.Constant (.Num q))) =
      (make_unknown (.Member (.Array items) (.Constant (.Num q))) "invalid index",
       true) := by
  have hfloor : (Int.floor ((n : ℚ))).toNat = n := by
    rw [Int.floor_natCast]
    exact Int.toNat_natCast n
  constructor
  · simp only [replace_builtin, hfloor]
    rw [if_pos ⟨trivial, hn⟩]
    rw [List.getD_eq_getElem _ _ hn, List.getD_eq_getElem _ _ hn]
  · simp only [replace_builtin]
    rw [if_neg]
    intro hcond
    exact hq ⟨(Int.floor q).toNat, hcond.1, hcond.2⟩

/-- Witness for C5: index 1 of `[x, y, z]` yields `y`, and index 5 of a
three-element array yields `Unknown("invalid index")`. -/
theorem C5_member_array_constant_index_witness :
    replace_builtin (.Member (.Array [.Variable 10, .Variable 11, .Variable 12])
        (.Constant (.Num 1))) = (.Variable 11, true) ∧
    replace_builtin (.Member (.Array [.Variable 10, .Variable 11, .Variable 12])
        (.Constant (.Num 5))) =
      (make_unknown (.Member (.Array [.Variable 10, .Variable 11, .Variable 12])
          (.Constant (.Num 5))) "invalid index", true) := by
  have h := C5_member_array_constant_index
    [.Variable 10, .Variable 11, .Variable 12] 1 5 (.Constant .Undefined)
    (by norm_num)
    (by
      rintro ⟨m, hm, hl⟩
      have hm5 : m = 5 := by exact_mod_cast hm
      simp only [List.length_cons, List.length_nil] at hl
      omega)
  constructor
  · have h1 := h.1
    rw [Nat.cast_one] at h1
    exact h1
  · exact h.2

/-- Claim C6: a `MemberCall` on `Array(items)` with constant-string property
"concat" and arguments all in the splice-safe whitelist is replaced by the
array of `items` extended, per argument in order, by the argument's elements
when it is an `Array` and by the argument itself otherwise; with any argument
outside the whitelist the node is instead rewritten to the generic form
`Call(Member(Array(items), Constant("concat")), args)`. -/
theorem C6_array_concat_specialization (items items2 args args2 : List JsValue)
    (hsafe : args.all isSpliceSafe = true)
    (hrej : args2.all isSpliceSafe = false) :
    replace_builtin (.MemberCall (.Array items) (.Constant (.Str "concat")) args) =
      (.Array (items ++ (args.map spliceArg).flatten), true) ∧
    replace_builtin (.MemberCall (.Array items2) (.Constant (.Str "concat")) args2) =
      (.Call (.Member (.Array items2) (.Constant (.Str "concat"))) args2, true) := by
  constructor
  · simp only [replace_builtin]
    rw [if_pos ⟨trivial, hsafe⟩]
  · simp only [replace_builtin]
    rw [if_neg]
    rintro ⟨-, h⟩
    rw [hrej] at h
    cases h

/-- Witness for C6: `MemberCall(Array([a, b]), Constant("concat"), [Array([c])])`
reduces to `Array([a, b, c])`, and an `Unknown` argument falls through to the
generic `Call(Member(..), ..)` form. -/
theorem C6_array_concat_specialization_witness :
    replace_builtin (.MemberCall (.Array [.Variable 20, .Variable 21])
        (.Constant (.Str "concat")) [.Array [.Variable 22]]) =
      (.Array [.Variable 20, .Variable 21, .Variable 22], true) ∧
    replace_builtin (.MemberCall (.Array [.Variable 20])
        (.Constant (.Str "concat")) [.Unknown none "x"]) =
      (.Call (.Member (.Array [.Variable 20]) (.Constant (.Str "concat")))
        [.Unknown none "x"], true) := by
  have h := C6_array_concat_specialization [.Variable 20, .Variable 21] [.Variable 20]
    [.Array [.Variable 22]] [.Unknown none "x"] rfl rfl
  exact ⟨h.1.trans (by rfl), h.2⟩

/-- Claim C7: `resolve_request` yields `Invalid` exactly in the degradation
cases — an empty alternatives list, an unrecognized non-trivial resolution
shape, or a selected candidate (the sole one, or the first of several) that is
not placeable — and it emits a diagnostic exactly in the non-empty cases of
these; every emitted diagnostic has bug severity. -/
theorem C7_invalid_and_diagnostics {Asset Placeable ModuleId : Type}
    (p : String) (rf : Asset → Option Placeable) (ap : Asset → String)
    (ctx : ChunkContext Asset Placeable ModuleId) (rr : ResolveResult Asset)
    (rt : ResolveType) :
    ((resolve_request p rf ap ctx rr rt).1 = .Invalid ↔
      (rr = .Alternatives [] ∨ rr = .Other ∨
        ∃ a, (rr = .Single a ∨ ∃ rest, rr = .Alternatives (a :: rest)) ∧
          rf a = none)) ∧
    ((resolve_request p rf ap ctx rr rt).2 = [] ↔
      ¬(rr = .Other ∨
        ∃ a, (rr = .Single a ∨ ∃ rest, rr = .Alternatives (a :: rest)) ∧
          rf a = none)) ∧
    (∀ i ∈ (resolve_request p rf ap ctx rr rt).2, i.severity = .Bug) := by
  cases rr with
  | Alternatives assets =>
    cases assets with
    | nil => simp [resolve_request]
    | cons a rest =>
      cases h : rf a with
      | some pl => simp [resolve_request, h]
      | none => simp [resolve_request, h]
  | Single a =>
    cases h : rf a with
    | some pl => simp [resolve_request, h]
    | none => simp [resolve_request, h]
  | SpecialOriginalReferenceExternal => simp [resolve_request]
  | SpecialOriginalReferenceTypeExternal s => simp [resolve_request]
  | Other => simp [resolve_request]

/-- Claim C8: for a resolution with exactly one placeable candidate asset,
`resolve_request` yields `Single(module_id)` with no diagnostic, where the
module id is the manifest-loader id of the asset under the asynchronous
convention (`EsmAsync`) and the direct placement id of the placeable under
the synchronous one (`Cjs`). -/
theorem C8_single_placeable_asset {Asset Placeable ModuleId : Type}
    (p : String) (rf : Asset → Option Placeable) (ap : Asset → String)
    (ctx : ChunkContext Asset Placeable ModuleId) (a : Asset) (pl : Placeable)
    (h : rf a = some pl) (rt : ResolveType) :
    resolve_request p rf ap ctx (.Single a) rt =
      (.Single (if rt = ResolveType.EsmAsync then ctx.manifest_loader_id a
                else ctx.id pl), []) := by
  simp only [resolve_request, h]

/-- Witness for C8: a concrete single placeable asset under the synchronous
convention yields the direct placement id the chunk context assigns. -/
theorem C8_single_placeable_asset_witness :
    resolve_request "p" (fun n : Nat => some (n + 1)) (fun _ => "x")
        (ChunkContext.mk (fun n => n + 100) (fun n => n + 200))
        (.Single 5) .Cjs = (.Single 206, []) := by
  have h := C8_single_placeable_asset "p" (fun n : Nat => some (n + 1)) (fun _ => "x")
    (ChunkContext.mk (fun n => n + 100) (fun n => n + 200)) 5 6 rfl .Cjs
  exact h.trans (by rfl)

/-- Claim C9: `resolve_request` maps the resolver's external marker to
`OriginalReferenceExternal` and the external-with-override marker to
`OriginalReferenceTypeExternal(s)`, both without diagnostics; `apply` on
`OriginalReferenceExternal` returns the key expression unchanged, and on
`OriginalReferenceTypeExternal(s)` discards it and returns a literal string
node holding `s`. -/
theorem C9_external_markers {Asset Placeable ModuleId : Type} :
    (∀ (p : String) (rf : Asset → Option Placeable) (ap : Asset → String)
       (ctx : ChunkContext Asset Placeable ModuleId) (rt : ResolveType),
      resolve_request p rf ap ctx .SpecialOriginalReferenceExternal rt =
        (.OriginalReferenceExternal, [])) ∧
    (∀ (p : String) (rf : Asset → Option Placeable) (ap : Asset → String)
       (ctx : ChunkContext Asset Placeable ModuleId) (rt : ResolveType) (s : String),
      resolve_request p rf ap ctx (.SpecialOriginalReferenceTypeExternal s) rt =
        (.OriginalReferenceTypeExternal s, [])) ∧
    (∀ K : Expr ModuleId,
      PatternMapping.apply .OriginalReferenceExternal K = some K) ∧
    (∀ (K : Expr ModuleId) (s : String),
      (PatternMapping.OriginalReferenceTypeExternal s).apply K = some (.LitStr s)) :=
  ⟨fun _ _ _ _ _ => rfl, fun _ _ _ _ _ _ => rfl, fun _ => rfl, fun _ _ => rfl⟩

/-- Counterexample to claim C2: a resolution carrying two alternative
placeable candidate assets does not produce the `Map` classification —
`resolve_request` takes the first candidate and yields `Single` of its id. -/
theorem C2_counterexample_alternatives_yield_single :
    resolve_request "ctx" (fun a : Nat => some a) (fun _ => "path")
        (ChunkContext.mk (fun a => a + 100) (fun pl : Nat => pl))
        (.Alternatives [7, 8]) .Cjs = (.Single 7, []) ∧
    ((resolve_request "ctx" (fun a : Nat => some a) (fun _ => "path")
        (ChunkContext.mk (fun a => a + 100) (fun pl : Nat => pl))
        (.Alternatives [7, 8]) .Cjs).1).isMap = false :=
  ⟨rfl, rfl⟩

/-- Claim C2 as amended: for a resolution carrying several alternative
candidate assets, `resolve_request` selects the first candidate and
classifies it like a single asset — `Single(module_id)` when that first
candidate is placeable — and it never produces the `Map` classification for
any resolution result. -/
theorem C2_alternatives_first_not_map {Asset Placeable ModuleId : Type}
    (p : String) (rf : Asset → Option Placeable) (ap : Asset → String)
    (ctx : ChunkContext Asset Placeable ModuleId) (a : Asset) (rest : List Asset)
    (pl : Placeable) (h : rf a = some pl) (rt : ResolveType) :
    resolve_request p rf ap ctx (.Alternatives (a :: rest)) rt =
      (.Single (if rt = ResolveType.EsmAsync then ctx.manifest_loader_id a
                else ctx.id pl), []) ∧
    (∀ rr : ResolveResult Asset,
      ((resolve_request p rf ap ctx rr rt).1).isMap = false) := by
  constructor
  · simp only [resolve_request, List.head?, h]
  · intro rr
    cases rr with
    | Alternatives assets =>
      cases assets with
      | nil => rfl
      | cons b rest2 =>
        cases hb : rf b <;> simp [resolve_request, hb, PatternMapping.isMap]
    | Single b =>
      cases hb : rf b <;> simp [resolve_request, hb, PatternMapping.isMap]
    | SpecialOriginalReferenceExternal => rfl
    | SpecialOriginalReferenceTypeExternal s => rfl
    | Other => rfl

/-- Witness for the amended C2: two placeable alternatives yield `Single` of
the first candidate's id, and an unrecognized shape is likewise not `Map`. -/
theorem C2_alternatives_first_not_map_witness :
    resolve_request "ctx" (fun a : Nat => some a) (fun _ => "path2")
        (ChunkContext.mk (fun a => a + 100) (fun pl : Nat => pl))
        (.Alternatives [7, 8]) .Cjs = (.Single 7, []) ∧
    ((resolve_request "ctx" (fun a : Nat => some a) (fun _ => "path2")
        (ChunkContext.mk (fun a => a + 100) (fun pl : Nat => pl))
        (.Other) .Cjs).1).isMap = false := by
  have h := C2_alternatives_first_not_map "ctx" (fun a : Nat => some a) (fun _ => "path2")
    (ChunkContext.mk (fun a => a + 100) (fun pl : Nat => pl)) 7 [8] 7 rfl .Cjs
  exact ⟨h.1, h.2 .Other⟩
